import Mathlib

/-!
Shallow embedding of `src/helium-animated-pages.js` (the `HeliumAnimatedPages`
custom element).  Pages (the element's children) are modelled as a list of
`Page` records (attribute list + class list); a child element's identity is its
index in that list.  DOM event listeners are modelled by two component-level
fields (`inListener`, `outListener`) recording on which child the bound
`_inAnimation` / `_outAnimation` handlers are currently installed.  Methods
that can throw return `Option String × HeliumState`: the first component is
`some msg` when the JS code throws, and the second component is the state after
all mutations performed before the throw.
-/

namespace Helium

/-- An animation class pair `{in: ..., out: ...}` from the rule table. -/
structure ClassPair where
  «in» : String
  out : String
deriving Repr, DecidableEq

/-- Attribute lists: `getAttribute` returns the first binding (DOM attributes
have unique names, so this is exact). -/
def getAttr : List (String × String) → String → Option String
  | [], _ => none
  | (k, w) :: rest, n => if k = n then some w else getAttr rest n

/-- JS `setAttribute`: replace the existing binding, else append. -/
def setAttr : List (String × String) → String → String → List (String × String)
  | [], n, v => [(n, v)]
  | (k, w) :: rest, n, v => if k = n then (n, v) :: rest else (k, w) :: setAttr rest n v

/-- JS `removeAttribute`: drop every binding of `n` (DOM attributes are unique,
so this is exact). -/
def removeAttr : List (String × String) → String → List (String × String)
  | [], _ => []
  | (k, w) :: rest, n => if k = n then removeAttr rest n else (k, w) :: removeAttr rest n

/-- JS `classList.add`: no-op when already present, else appended at the end. -/
def addClass (l : List String) (c : String) : List String :=
  if c ∈ l then l else l ++ [c]

/-- JS `classList.remove`. -/
def removeClass : List String → String → List String
  | [], _ => []
  | d :: rest, c => if d = c then removeClass rest c else d :: removeClass rest c

/-- A child element ("page") of the component. -/
structure Page where
  attrs : List (String × String)
  classes : List String
deriving Repr, DecidableEq

def Page.getAttribute (p : Page) (n : String) : Option String := getAttr p.attrs n

def Page.setAttribute (p : Page) (n v : String) : Page :=
  { p with attrs := setAttr p.attrs n v }

def Page.removeAttribute (p : Page) (n : String) : Page :=
  { p with attrs := removeAttr p.attrs n }

def Page.classListAdd (p : Page) (c : String) : Page :=
  { p with classes := addClass p.classes c }

def Page.classListRemove (p : Page) (c : String) : Page :=
  { p with classes := removeClass p.classes c }

/-- The `animationClasses` rule table: a JS object mapping rule keys to class
pairs, as an association list (first binding wins, like unique JS keys). -/
def RuleTable := List (String × ClassPair)
deriving instance Repr, DecidableEq for RuleTable

/-- JS `key in obj`. -/
def hasKey (t : RuleTable) (k : String) : Bool :=
  (List.find? (fun kv => kv.1 = k) t).isSome

/-- JS `obj[key]` (`none` = `undefined`). -/
def getKey (t : RuleTable) (k : String) : Option ClassPair :=
  (List.find? (fun kv => kv.1 = k) t).map (fun kv => kv.2)

/-- The `_animationClasses(next, prev)` method: the transition rule matcher.  Returns the
value of the most specific matching rule, else the `default` entry (which is
`undefined`, i.e. `none`, when absent). -/
def animationClassesFor (t : RuleTable) (next prev : String) : Option ClassPair :=
  let fullId := prev ++ "_" ++ next
  let toId := "*_" ++ next
  let fromId := prev ++ "_*"
  if hasKey t fullId then getKey t fullId
  else if hasKey t toId then getKey t toId
  else if hasKey t fromId then getKey t fromId
  else getKey t "default"

/-- The value stored in `_selected`: either an attribute value (string) or a
child index (number). -/
inductive SelId where
  | str (v : String)
  | idx (n : Nat)
deriving Repr, DecidableEq

/-- A JS value passed to `select` / the `selected` setter: a string, an integer
number, a non-integer number (`1.5`, `NaN`, ...), or a value of any other type. -/
inductive NextVal where
  | str (v : String)
  | num (n : Int)
  | nonIntNum
  | other
deriving Repr, DecidableEq

/-- JS `_isStringMode(next)`: `true` for strings, `false` for non-negative
integers, throws otherwise. -/
def isStringMode : NextVal → Except String Bool
  | NextVal.str _ => Except.ok true
  | NextVal.num n =>
      if 0 ≤ n then Except.ok false
      else Except.error "next must be a string or a positive integer"
  | NextVal.nonIntNum => Except.error "next must be a string or a positive integer"
  | NextVal.other => Except.error "next must be a string or a positive integer"

/-- Template-literal stringification of `next` (only reached for values that
passed `_isStringMode`). -/
def nextStr : NextVal → String
  | NextVal.str v => v
  | NextVal.num n => toString n
  | NextVal.nonIntNum => "NaN"
  | NextVal.other => "[object]"

/-- Component state.  `animationClasses = none` models the property being
unset; `attrForSelected = none` likewise.  `inListener`/`outListener` record
the child index on which `_inAnimationBound` / `_outAnimationBound` is
currently installed via `addEventListener`. -/
structure HeliumState where
  children : List Page
  animationClasses : Option RuleTable
  attrForSelected : Option String
  _selected : Option SelId
  _animating : Bool
  _inAnimationEnded : Bool
  _outAnimationEnded : Bool
  _inPage : Option Nat
  _outPage : Option Nat
  _currentClasses : Option ClassPair
  inListener : Option Nat
  outListener : Option Nat
deriving Repr, DecidableEq

/-- JS truthiness of `attrForSelected` (unset, `null` and `""` are falsy). -/
def attrTruthy : Option String → Bool
  | none => false
  | some a => a ≠ ""

/-- The attribute name used in selectors (only read when truthy). -/
def attrVal : Option String → String
  | none => ""
  | some a => a

/-- Truthiness of `_selected` as tested by `this._selected || this._selected === 0`. -/
def selTruthy : SelId → Bool
  | SelId.str v => v ≠ ""
  | SelId.idx _ => true

/-- Stringification of `_selected` when interpolated into a selector. -/
def selStr : SelId → String
  | SelId.str v => v
  | SelId.idx n => toString n

/-- The `querySelector('[a="v"]')` lookup over the component's children: index of the
first child whose attribute `a` equals `v` exactly. -/
def qsIdx : List Page → String → String → Option Nat
  | [], _, _ => none
  | p :: rest, a, v =>
      if p.getAttribute a = some v then some 0
      else (qsIdx rest a v).map (fun i => i + 1)

/-- The `selectedItem` getter: resolves `_selected` back to a child (index), via
`querySelector` when `attrForSelected` is truthy, else by numeric index. -/
def selectedItem (s : HeliumState) : Option Nat :=
  match s._selected with
  | none => none
  | some sel =>
      if selTruthy sel then
        if attrTruthy s.attrForSelected then
          qsIdx s.children (attrVal s.attrForSelected) (selStr sel)
        else
          match sel with
          | SelId.idx n => if n < s.children.length then some n else none
          | SelId.str _ => none
      else none

/-- List `l` with the element at index `k` replaced by `f` of it. -/
def updateNth : List Page → Nat → (Page → Page) → List Page
  | [], _, _ => []
  | p :: rest, 0, f => f p :: rest
  | p :: rest, Nat.succ k, f => p :: updateNth rest k f

/-- Apply `f` to child `k`. -/
def updChild (s : HeliumState) (k : Nat) (f : Page → Page) : HeliumState :=
  { s with children := updateNth s.children k f }

/-- Resolution of the new page (`this._inPage = stringMode ? querySelector(...)
: this.children[next]`). -/
def resolveInPage (s : HeliumState) (next : NextVal) (stringMode : Bool) : Option Nat :=
  if stringMode then qsIdx s.children (attrVal s.attrForSelected) (nextStr next)
  else
    match next with
    | NextVal.num n => if n.toNat < s.children.length then some n.toNat else none
    | _ => none

/-- The attribute value of child `i` under attribute `a` (`getAttribute`). -/
def childAttr (children : List Page) (i : Nat) (a : String) : Option String :=
  match children[i]? with
  | none => none
  | some p => p.getAttribute a

/-- The `prev` identifier computed in the setter, already stringified as the
template literal does (`null` prints as `"null"`, a missing previous page
yields `''`). -/
def prevId (s : HeliumState) (stringMode : Bool) : String :=
  match s._outPage with
  | some o =>
      if stringMode then
        match childAttr s.children o (attrVal s.attrForSelected) with
        | some v => v
        | none => "null"
      else toString o
  | none => ""

/-- The assignment `this._selected = this.attrForSelected ? this._inPage.getAttribute(this.attrForSelected) : next`. -/
def newSelected (s : HeliumState) (next : NextVal) (i : Nat) : Option SelId :=
  if attrTruthy s.attrForSelected then
    match childAttr s.children i (attrVal s.attrForSelected) with
    | some v => some (SelId.str v)
    | none => none
  else
    match next with
    | NextVal.num n => some (SelId.idx n.toNat)
    | NextVal.str v => some (SelId.str v)
    | _ => none

/-- The `_beginAnimation()` method.  Throws a TypeError (modelled by `some msg`) when
`_currentClasses` is `undefined`, after the mutations preceding the crash. -/
def beginAnimation (s : HeliumState) : Option String × HeliumState :=
  let s0 := { s with _animating := true }
  match s0._inPage with
  | none => (some "TypeError: this._inPage is null", s0)
  | some i =>
      let s1 := { s0 with inListener := some i }
      match s1._outPage with
      | some o =>
          let s2 := { s1 with outListener := some o }
          match s2._currentClasses with
          | none => (some "TypeError: this._currentClasses is undefined", s2)
          | some cc =>
              let s3 := updChild s2 o (fun p => p.classListAdd cc.out)
              let s4 := updChild s3 i (fun p => p.classListAdd cc.«in»)
              let s5 := updChild s4 i (fun p => p.setAttribute "active" "true")
              (none, s5)
      | none =>
          let s2 := { s1 with _outAnimationEnded := true }
          match s2._currentClasses with
          | none => (some "TypeError: this._currentClasses is undefined", s2)
          | some cc =>
              let s3 := updChild s2 i (fun p => p.classListAdd cc.«in»)
              let s4 := updChild s3 i (fun p => p.setAttribute "active" "true")
              (none, s4)

/-- The `_onAnimationEnd()` handler: settles the transition once both legs have ended. -/
def onAnimationEnd (s : HeliumState) : Option String × HeliumState :=
  if s._inAnimationEnded && s._outAnimationEnded then
    let s1 := { s with _inAnimationEnded := false, _outAnimationEnded := false,
                       _animating := false }
    match s1._inPage, s1._currentClasses with
    | some i, some cc =>
        let s2 := updChild s1 i (fun p => p.classListRemove cc.«in»)
        let s3 :=
          match s2._outPage with
          | some o =>
              updChild (updChild s2 o (fun p => p.removeAttribute "active")) o
                (fun p => p.classListRemove cc.out)
          | none => s2
        (none, { s3 with _inPage := none, _outPage := none, _currentClasses := none })
    | _, _ => (some "TypeError in _onAnimationEnd", s1)
  else (none, s)

/-- The `_inAnimation(e)` handler: the inbound animation-finished handler. -/
def inAnimation (s : HeliumState) : Option String × HeliumState :=
  match s._inPage with
  | none => (some "TypeError: this._inPage is null", s)
  | some i =>
      let s1 := { s with inListener := if s.inListener = some i then none else s.inListener,
                         _inAnimationEnded := true }
      onAnimationEnd s1

/-- The `_outAnimation(e)` handler: the outbound animation-finished handler. -/
def outAnimation (s : HeliumState) : Option String × HeliumState :=
  match s._outPage with
  | none => (some "TypeError: this._outPage is null", s)
  | some o =>
      let s1 := { s with outListener := if s.outListener = some o then none else s.outListener,
                         _outAnimationEnded := true }
      onAnimationEnd s1

/-- The error message of the `No page found` throw. -/
def noPageMsg (s : HeliumState) (stringMode : Bool) (next : NextVal) : String :=
  if stringMode then
    "No page found with " ++ attrVal s.attrForSelected ++ "=\"" ++ nextStr next ++ "\""
  else
    "No page found with index " ++ nextStr next

/-- The `selected` setter — the selection/transition entry point. -/
def setSelected (s : HeliumState) (next : NextVal) : Option String × HeliumState :=
  match s.animationClasses with
  | none => (some "animationClasses must be defined", s)
  | some table =>
      if s._animating then (none, s)
      else
        match isStringMode next with
        | Except.error e => (some e, s)
        | Except.ok stringMode =>
            if stringMode && !(attrTruthy s.attrForSelected) then
              (some "attrForSelected must be defined if next is a string", s)
            else
              let inP := resolveInPage s next stringMode
              let outP := selectedItem s
              let s1 := { s with _inPage := inP, _outPage := outP }
              match inP with
              | none => (some (noPageMsg s stringMode next), s1)
              | some i =>
                  if inP = outP then (none, s1)
                  else
                    let prev := prevId s1 stringMode
                    let s2 := { s1 with _selected := newSelected s next i }
                    let s3 := { s2 with
                      _currentClasses := animationClassesFor table (nextStr next) prev }
                    beginAnimation s3

/-- The `select(next)` method just assigns the `selected` property. -/
def select (s : HeliumState) (next : NextVal) : Option String × HeliumState :=
  setSelected s next

/-- The `selectNext()` method. -/
def selectNext (s : HeliumState) : Option String × HeliumState :=
  if s.children.length = 0 then
    (some "This component has no children to animate", s)
  else
    let prevIndex : Int :=
      match selectedItem s with
      | some i => (i : Int)
      | none => -1
    let nextIndex : Int :=
      if prevIndex + 1 ≥ (s.children.length : Int) then 0 else prevIndex + 1
    setSelected s (NextVal.num nextIndex)

/-- The `selectPrevious()` method. -/
def selectPrevious (s : HeliumState) : Option String × HeliumState :=
  if s.children.length = 0 then
    (some "This component has no children to animate", s)
  else
    let prevIndex : Int :=
      match selectedItem s with
      | some i => (i : Int)
      | none => -1
    let nextIndex : Int :=
      if prevIndex - 1 < 0 then (s.children.length : Int) - 1 else prevIndex - 1
    setSelected s (NextVal.num nextIndex)

/-- A freshly constructed element with the given children and configuration:
all internal flags are unset (falsy), as after the constructor runs. -/
def freshState (ch : List Page) (tbl : Option RuleTable) (afs : Option String) : HeliumState :=
  { children := ch, animationClasses := tbl, attrForSelected := afs,
    _selected := none, _animating := false, _inAnimationEnded := false,
    _outAnimationEnded := false, _inPage := none, _outPage := none,
    _currentClasses := none, inListener := none, outListener := none }

def cpFade : ClassPair := { «in» := "fadeIn", out := "fadeOut" }

def cpSlide : ClassPair := { «in» := "slideIn", out := "slideOut" }

def W1 : RuleTable := [("a_b", cpSlide), ("*_b", cpFade), ("default", cpFade)]

/-- A concrete mid-setter state about to begin a `0 → 1` transition. -/
def W2 : HeliumState :=
  { children := [{ attrs := [("active", "true")], classes := [] }, { attrs := [], classes := [] }],
    animationClasses := some W1, attrForSelected := none,
    _selected := some (SelId.idx 1), _animating := false,
    _inAnimationEnded := false, _outAnimationEnded := false,
    _inPage := some 1, _outPage := some 0, _currentClasses := some cpFade,
    inListener := none, outListener := none }

/-- A concrete mid-setter state of a three-child element about to begin a
`0 → 1` transition. -/
def W9 : HeliumState :=
  { children := [{ attrs := [("active", "true")], classes := [] },
                 { attrs := [], classes := [] },
                 { attrs := [("x", "y")], classes := ["c"] }],
    animationClasses := some W1, attrForSelected := none,
    _selected := some (SelId.idx 1), _animating := false,
    _inAnimationEnded := false, _outAnimationEnded := false,
    _inPage := some 1, _outPage := some 0, _currentClasses := some cpFade,
    inListener := none, outListener := none }

/-- Child `k` carries CSS class `c`. -/
def childHasClass (children : List Page) (k : Nat) (c : String) : Prop :=
  ∃ p, children[k]? = some p ∧ c ∈ p.classes

/-- A concrete state used by the C5 witness: page 0 is selected and the setter
is asked for page 0 again. -/
def W5 : HeliumState :=
  { children := [{ attrs := [("active", "true")], classes := [] }, { attrs := [], classes := [] }],
    animationClasses := some W1, attrForSelected := none,
    _selected := some (SelId.idx 0), _animating := false,
    _inAnimationEnded := false, _outAnimationEnded := false,
    _inPage := none, _outPage := none, _currentClasses := none,
    inListener := none, outListener := none }

/-- The state with `_inPage`/`_outPage` freshly assigned by the setter, as it
is when `_animationClasses` is consulted. -/
def midState (s : HeliumState) (i : Nat) : HeliumState :=
  { s with _inPage := some i, _outPage := selectedItem s }

def pageNameA : Page := { attrs := [("name", "a")], classes := [] }

def pageNameB : Page := { attrs := [("name", "b")], classes := [] }

def defaultTable : RuleTable := [("default", cpFade)]

/-- Two children with the same `name` attribute value. -/
def C3stateA : HeliumState := freshState [pageNameA, pageNameA] (some defaultTable) (some "name")

/-- Here `attrForSelected` is the literal attribute name `active`. -/
def C3stateB : HeliumState :=
  freshState [{ attrs := [("active", "x")], classes := [] }] (some defaultTable) (some "active")

/-- A child whose identifying attribute value is the empty string. -/
def C3stateC : HeliumState :=
  freshState [{ attrs := [("name", "")], classes := [] }] (some defaultTable) (some "name")

/-- A well-configured two-page element for the C3 witness. -/
def W3 : HeliumState := freshState [pageNameA, pageNameB] (some defaultTable) (some "name")

def pageBlank : Page := { attrs := [], classes := [] }

/-- Here `animationClasses` is set (to an empty rule table), two blank children. -/
def C4state : HeliumState := freshState [pageBlank, pageBlank] (some []) none

/-! ### Lemmas about the DOM primitives -/

theorem updateNth_length (l : List Page) (k : Nat) (f : Page → Page) :
    (updateNth l k f).length = l.length := by
  induction l generalizing k with
  | nil => rfl
  | cons p rest ih => cases k <;> simp [updateNth, ih]

theorem updateNth_get_ne (l : List Page) (k j : Nat) (f : Page → Page) (h : j ≠ k) :
    (updateNth l k f)[j]? = l[j]? := by
  induction l generalizing k j with
  | nil => rfl
  | cons p rest ih =>
      cases k with
      | zero =>
          cases j with
          | zero => exact absurd rfl h
          | succ j => simp [updateNth]
      | succ k =>
          cases j with
          | zero => simp [updateNth]
          | succ j => simpa [updateNth] using ih k j (by omega)

theorem updateNth_get_eq (l : List Page) (k : Nat) (f : Page → Page) :
    (updateNth l k f)[k]? = (l[k]?).map f := by
  induction l generalizing k with
  | nil => rfl
  | cons p rest ih =>
      cases k with
      | zero => simp [updateNth]
      | succ k => simpa [updateNth] using ih k

theorem getAttr_setAttr_self (l : List (String × String)) (n v : String) :
    getAttr (setAttr l n v) n = some v := by
  induction l with
  | nil => simp [setAttr, getAttr]
  | cons kv rest ih =>
      obtain ⟨k, w⟩ := kv
      by_cases h : k = n
      · simp [setAttr, getAttr, h]
      · simp [setAttr, getAttr, h, ih]

theorem getAttr_setAttr_ne (l : List (String × String)) (n v m : String) (h : m ≠ n) :
    getAttr (setAttr l n v) m = getAttr l m := by
  induction l with
  | nil => simp [setAttr, getAttr, Ne.symm h]
  | cons kv rest ih =>
      obtain ⟨k, w⟩ := kv
      by_cases hk : k = n
      · subst hk
        simp [setAttr, getAttr, Ne.symm h]
      · simp [setAttr, getAttr, hk, ih]

theorem getAttr_removeAttr_self (l : List (String × String)) (n : String) :
    getAttr (removeAttr l n) n = none := by
  induction l with
  | nil => rfl
  | cons kv rest ih =>
      obtain ⟨k, w⟩ := kv
      by_cases h : k = n
      · simp [removeAttr, h, ih]
      · simp [removeAttr, h, getAttr, ih]

theorem getAttr_removeAttr_ne (l : List (String × String)) (n m : String) (h : m ≠ n) :
    getAttr (removeAttr l n) m = getAttr l m := by
  induction l with
  | nil => rfl
  | cons kv rest ih =>
      obtain ⟨k, w⟩ := kv
      by_cases hk : k = n
      · subst hk
        simp [removeAttr, getAttr, Ne.symm h, ih]
      · simp [removeAttr, hk, getAttr, ih]

theorem mem_addClass_self (l : List String) (c : String) : c ∈ addClass l c := by
  by_cases h : c ∈ l <;> simp [addClass, h]

theorem not_mem_removeClass_self (l : List String) (c : String) : c ∉ removeClass l c := by
  induction l with
  | nil => simp [removeClass]
  | cons d rest ih =>
      by_cases h : d = c
      · simp [removeClass, h, ih]
      · simp [removeClass, h, ih, Ne.symm h]

theorem qsIdx_lt_length (l : List Page) (a v : String) (i : Nat)
    (h : qsIdx l a v = some i) : i < l.length := by
  induction l generalizing i with
  | nil => simp [qsIdx] at h
  | cons p rest ih =>
      by_cases hp : p.getAttribute a = some v
      · simp [qsIdx, hp] at h
        simp [← h]
      · cases hq : qsIdx rest a v with
        | none => simp [qsIdx, hp, hq] at h
        | some j =>
            simp [qsIdx, hp, hq] at h
            have := ih j hq
            simp
            omega

theorem qsIdx_found (l : List Page) (a v : String) (i : Nat)
    (h : qsIdx l a v = some i) :
    ∃ p, l[i]? = some p ∧ p.getAttribute a = some v := by
  induction l generalizing i with
  | nil => simp [qsIdx] at h
  | cons p rest ih =>
      by_cases hp : p.getAttribute a = some v
      · simp [qsIdx, hp] at h
        exact ⟨p, by simp [← h], hp⟩
      · cases hq : qsIdx rest a v with
        | none => simp [qsIdx, hp, hq] at h
        | some j =>
            simp [qsIdx, hp, hq] at h
            obtain ⟨q, hq1, hq2⟩ := ih j hq
            exact ⟨q, by simp [← h, hq1], hq2⟩

theorem qsIdx_first (l : List Page) (a v : String) (i : Nat)
    (h : qsIdx l a v = some i) :
    ∀ j, j < i → ∀ p, l[j]? = some p → p.getAttribute a ≠ some v := by
  induction l generalizing i with
  | nil => simp [qsIdx] at h
  | cons p rest ih =>
      by_cases hp : p.getAttribute a = some v
      · simp [qsIdx, hp] at h
        intro j hj
        exact absurd (lt_of_lt_of_eq hj h.symm) (Nat.not_lt_zero j)
      · cases hq : qsIdx rest a v with
        | none => simp [qsIdx, hp, hq] at h
        | some j0 =>
            simp [qsIdx, hp, hq] at h
            intro j hj q hjq
            cases j with
            | zero =>
                simp at hjq
                rw [← hjq]
                exact hp
            | succ j =>
                simp at hjq
                exact ih j0 hq j (by omega) q hjq

theorem qsIdx_congr (l l' : List Page) (a : String)
    (h : l.map (fun p => p.getAttribute a) = l'.map (fun p => p.getAttribute a))
    (v : String) : qsIdx l a v = qsIdx l' a v := by
  induction l generalizing l' with
  | nil =>
      cases l' with
      | nil => rfl
      | cons q rest' => simp at h
  | cons p rest ih =>
      cases l' with
      | nil => simp at h
      | cons q rest' =>
          simp only [List.map_cons, List.cons.injEq] at h
          obtain ⟨h1, h2⟩ := h
          simp [qsIdx, h1, ih rest' h2]

theorem map_attr_updateNth (l : List Page) (k : Nat) (f : Page → Page) (a : String)
    (hf : ∀ p, (f p).getAttribute a = p.getAttribute a) :
    (updateNth l k f).map (fun p => p.getAttribute a) = l.map (fun p => p.getAttribute a) := by
  induction l generalizing k with
  | nil => rfl
  | cons p rest ih =>
      cases k with
      | zero => simp [updateNth, hf]
      | succ k => simp [updateNth, ih]

theorem selectedItem_lt_length (s : HeliumState) (k : Nat)
    (h : selectedItem s = some k) : k < s.children.length := by
  cases hsel : s._selected with
  | none => simp [selectedItem, hsel] at h
  | some sel =>
      by_cases ht : selTruthy sel
      · by_cases ha : attrTruthy s.attrForSelected
        · simp only [selectedItem, hsel, ht, ha, if_true] at h
          exact qsIdx_lt_length _ _ _ _ h
        · cases sel with
          | idx n =>
              simp only [selectedItem, hsel, ht, ha, if_true, Bool.false_eq_true,
                if_false] at h
              by_cases hn : n < s.children.length
              · rw [if_pos hn] at h
                injection h with h'
                omega
              · rw [if_neg hn] at h
                cases h
          | str v =>
              simp [selectedItem, hsel, ht, ha] at h
      · simp [selectedItem, hsel, ht] at h

theorem selectedItem_only_depends (s t : HeliumState)
    (h1 : s._selected = t._selected) (h2 : s.attrForSelected = t.attrForSelected)
    (h3 : s.children = t.children) : selectedItem s = selectedItem t := by
  simp [selectedItem, h1, h2, h3]

theorem getAttribute_classListAdd (p : Page) (c a : String) :
    (p.classListAdd c).getAttribute a = p.getAttribute a := rfl

theorem getAttribute_classListRemove (p : Page) (c a : String) :
    (p.classListRemove c).getAttribute a = p.getAttribute a := rfl

theorem getAttribute_setAttribute_ne (p : Page) (n v m : String) (h : m ≠ n) :
    (p.setAttribute n v).getAttribute m = p.getAttribute m :=
  getAttr_setAttr_ne _ _ _ _ h

/-- The method `_beginAnimation` never changes `_inPage`, `_selected`, `attrForSelected`,
the number of children, or the value of any attribute other than `active`. -/
theorem beginAnimation_preserves (s : HeliumState) (a : String) (ha : a ≠ "active") :
    (beginAnimation s).2._inPage = s._inPage ∧
    (beginAnimation s).2._selected = s._selected ∧
    (beginAnimation s).2.attrForSelected = s.attrForSelected ∧
    (beginAnimation s).2.children.length = s.children.length ∧
    (beginAnimation s).2.children.map (fun p => p.getAttribute a) =
      s.children.map (fun p => p.getAttribute a) := by
  obtain ⟨ch, ac, afs, sel, anim, inE, outE, inP, outP, ccf, inL, outL⟩ := s
  cases inP with
  | none => simp [beginAnimation]
  | some i =>
      cases outP with
      | some o =>
          cases ccf with
          | none => simp [beginAnimation]
          | some cc =>
              simp [beginAnimation, updChild, updateNth_length, map_attr_updateNth,
                getAttribute_classListAdd, getAttribute_setAttribute_ne, ha]
      | none =>
          cases ccf with
          | none => simp [beginAnimation]
          | some cc =>
              simp [beginAnimation, updChild, updateNth_length, map_attr_updateNth,
                getAttribute_classListAdd, getAttribute_setAttribute_ne, ha]

theorem selectedItem_str_via (s : HeliumState) (a v : String)
    (hsel : s._selected = some (SelId.str v)) (hv : v ≠ "")
    (hafs : s.attrForSelected = some a) (ha : a ≠ "") :
    selectedItem s = qsIdx s.children a v := by
  simp [selectedItem, hsel, hafs, selTruthy, hv, attrTruthy, ha, attrVal, selStr]

theorem selectedItem_idx_via (s : HeliumState) (n : Nat)
    (hsel : s._selected = some (SelId.idx n))
    (hattr : attrTruthy s.attrForSelected = false) :
    selectedItem s = if n < s.children.length then some n else none := by
  simp [selectedItem, hsel, hattr, selTruthy]

/-! ### Claims -/

/-- C1: For every rule table and identifiers `prev`/`next`, the matcher
returns the pair under `prev_next` when present; otherwise under `*_next`
when present; otherwise under `prev_*` when present; otherwise the `default`
entry.  With no previously selected page `prev` is the empty string, so a
key `_next` is matched as the most specific (from_to) rule. -/
theorem claim1_animationClasses_priority (t : RuleTable) (prev next : String) :
    (hasKey t (prev ++ "_" ++ next) = true →
      animationClassesFor t next prev = getKey t (prev ++ "_" ++ next)) ∧
    (hasKey t (prev ++ "_" ++ next) = false → hasKey t ("*_" ++ next) = true →
      animationClassesFor t next prev = getKey t ("*_" ++ next)) ∧
    (hasKey t (prev ++ "_" ++ next) = false → hasKey t ("*_" ++ next) = false →
      hasKey t (prev ++ "_*") = true →
      animationClassesFor t next prev = getKey t (prev ++ "_*")) ∧
    (hasKey t (prev ++ "_" ++ next) = false → hasKey t ("*_" ++ next) = false →
      hasKey t (prev ++ "_*") = false →
      animationClassesFor t next prev = getKey t "default") ∧
    (hasKey t ("_" ++ next) = true →
      animationClassesFor t next "" = getKey t ("_" ++ next)) := by
  refine ⟨?_, ?_, ?_, ?_, ?_⟩
  · intro h1
    simp [animationClassesFor, h1]
  · intro h1 h2
    simp [animationClassesFor, h1, h2]
  · intro h1 h2 h3
    simp [animationClassesFor, h1, h2, h3]
  · intro h1 h2 h3
    simp [animationClassesFor, h1, h2, h3]
  · intro h1
    have e : ("" ++ "_" ++ next : String) = "_" ++ next := by simp
    simp only [animationClassesFor, e]
    rw [if_pos h1]

/-- Witness for C1 at a concrete table: the `a_b` rule beats `*_b` and
`default`. -/
theorem claim1_witness : animationClassesFor W1 "b" "a" = getKey W1 "a_b" :=
  (claim1_animationClasses_priority W1 "a" "b").1 rfl

/-- C2: Once `_beginAnimation` has started a transition, `isAnimating` stays
true and the children (their classes and attributes) are untouched until both
the inbound and the outbound handlers have fired — firing a single leg never
settles the transition; with no previously selected page the outbound leg is
marked complete at start, so the inbound handler alone settles it. -/
theorem claim2_settles_only_after_both_legs (s : HeliumState) (i : Nat) (cc : ClassPair)
    (hin : s._inPage = some i) (hcc : s._currentClasses = some cc)
    (hie : s._inAnimationEnded = false) (hoe : s._outAnimationEnded = false) :
    (∀ o, s._outPage = some o →
      (beginAnimation s).1 = none ∧
      (beginAnimation s).2._animating = true ∧
      (inAnimation (beginAnimation s).2).1 = none ∧
      (inAnimation (beginAnimation s).2).2._animating = true ∧
      (inAnimation (beginAnimation s).2).2.children = (beginAnimation s).2.children ∧
      (outAnimation (beginAnimation s).2).1 = none ∧
      (outAnimation (beginAnimation s).2).2._animating = true ∧
      (outAnimation (beginAnimation s).2).2.children = (beginAnimation s).2.children ∧
      (outAnimation (inAnimation (beginAnimation s).2).2).2._animating = false ∧
      (inAnimation (outAnimation (beginAnimation s).2).2).2._animating = false) ∧
    (s._outPage = none →
      (beginAnimation s).1 = none ∧
      (beginAnimation s).2._outAnimationEnded = true ∧
      (beginAnimation s).2._animating = true ∧
      (inAnimation (beginAnimation s).2).1 = none ∧
      (inAnimation (beginAnimation s).2).2._animating = false) := by
  obtain ⟨ch, ac, afs, sel, anim, inE, outE, inP, outP, ccf, inL, outL⟩ := s
  simp only [] at hin hcc hie hoe
  subst hin hcc hie hoe
  constructor
  · intro o ho
    simp only [] at ho
    subst ho
    refine ⟨?_, ?_, ?_, ?_, ?_, ?_, ?_, ?_, ?_, ?_⟩ <;>
      simp [beginAnimation, inAnimation, outAnimation, onAnimationEnd, updChild]
  · intro ho
    simp only [] at ho
    subst ho
    refine ⟨?_, ?_, ?_, ?_, ?_⟩ <;>
      simp [beginAnimation, inAnimation, outAnimation, onAnimationEnd, updChild]

/-- Witness for C2: on a concrete transition, one leg leaves the component
animating and the second leg settles it. -/
theorem claim2_witness :
    (inAnimation (beginAnimation W2).2).2._animating = true ∧
    (outAnimation (inAnimation (beginAnimation W2).2).2).2._animating = false := by
  have h := (claim2_settles_only_after_both_legs W2 1 cpFade rfl rfl rfl rfl).1 0 rfl
  exact ⟨h.2.2.2.1, h.2.2.2.2.2.2.2.2.1⟩

/-- C7: `_beginAnimation` attaches the animation-finished listener to the
inbound page and, only when an outbound page exists, to the outbound page;
each handler removes its own listener the first time it fires; after the
transition settles neither page retains a listener, and at every point during
the transition a listener is attached only to one of the transition's two
pages. -/
theorem claim7_listener_discipline (s : HeliumState) (i : Nat) (cc : ClassPair)
    (hin : s._inPage = some i) (hcc : s._currentClasses = some cc)
    (hie : s._inAnimationEnded = false) (hoe : s._outAnimationEnded = false)
    (hil : s.inListener = none) (hol : s.outListener = none) :
    (∀ o, s._outPage = some o →
      (beginAnimation s).2.inListener = some i ∧
      (beginAnimation s).2.outListener = some o ∧
      (∀ p, (beginAnimation s).2.inListener = some p ∨
            (beginAnimation s).2.outListener = some p → p = i ∨ p = o) ∧
      (inAnimation (beginAnimation s).2).2.inListener = none ∧
      (inAnimation (beginAnimation s).2).2.outListener = some o ∧
      (outAnimation (beginAnimation s).2).2.outListener = none ∧
      (outAnimation (beginAnimation s).2).2.inListener = some i ∧
      (∀ p, (inAnimation (beginAnimation s).2).2.inListener = some p ∨
            (inAnimation (beginAnimation s).2).2.outListener = some p → p = i ∨ p = o) ∧
      (outAnimation (inAnimation (beginAnimation s).2).2).2.inListener = none ∧
      (outAnimation (inAnimation (beginAnimation s).2).2).2.outListener = none ∧
      (inAnimation (outAnimation (beginAnimation s).2).2).2.inListener = none ∧
      (inAnimation (outAnimation (beginAnimation s).2).2).2.outListener = none) ∧
    (s._outPage = none →
      (beginAnimation s).2.inListener = some i ∧
      (beginAnimation s).2.outListener = none ∧
      (∀ p, (beginAnimation s).2.inListener = some p ∨
            (beginAnimation s).2.outListener = some p → p = i) ∧
      (inAnimation (beginAnimation s).2).2.inListener = none ∧
      (inAnimation (beginAnimation s).2).2.outListener = none) := by
  obtain ⟨ch, ac, afs, sel, anim, inE, outE, inP, outP, ccf, inL, outL⟩ := s
  simp only [] at hin hcc hie hoe hil hol
  subst hin hcc hie hoe hil hol
  constructor
  · intro o ho
    simp only [] at ho
    subst ho
    refine ⟨?_, ?_, ?_, ?_, ?_, ?_, ?_, ?_, ?_, ?_, ?_, ?_⟩ <;>
      simp [beginAnimation, inAnimation, outAnimation, onAnimationEnd, updChild]
    intro p hp
    omega
  · intro ho
    simp only [] at ho
    subst ho
    refine ⟨?_, ?_, ?_, ?_, ?_⟩ <;>
      simp [beginAnimation, inAnimation, outAnimation, onAnimationEnd, updChild]

/-- Witness for C7: on the concrete `0 → 1` transition, both listeners are
attached at start and both are gone after both handlers have fired. -/
theorem claim7_witness :
    (beginAnimation W2).2.inListener = some 1 ∧
    (beginAnimation W2).2.outListener = some 0 ∧
    (outAnimation (inAnimation (beginAnimation W2).2).2).2.inListener = none ∧
    (outAnimation (inAnimation (beginAnimation W2).2).2).2.outListener = none := by
  have h := (claim7_listener_discipline W2 1 cpFade rfl rfl rfl rfl rfl rfl).1 0 rfl
  exact ⟨h.1, h.2.1, h.2.2.2.2.2.2.2.2.1, h.2.2.2.2.2.2.2.2.2.1⟩

/-- C9: over the whole lifetime of a transition — `_beginAnimation`, each
single handler, and settling (in either handler order) — every child other
than the inbound page `i` and the outbound page `o` is unchanged. -/
theorem claim9_transition_frame (s : HeliumState) (i : Nat) (cc : ClassPair)
    (hin : s._inPage = some i) (hcc : s._currentClasses = some cc)
    (hie : s._inAnimationEnded = false) (hoe : s._outAnimationEnded = false) :
    (∀ o, s._outPage = some o → ∀ k, k ≠ i → k ≠ o →
      (beginAnimation s).2.children[k]? = s.children[k]? ∧
      (inAnimation (beginAnimation s).2).2.children[k]? = s.children[k]? ∧
      (outAnimation (beginAnimation s).2).2.children[k]? = s.children[k]? ∧
      (outAnimation (inAnimation (beginAnimation s).2).2).2.children[k]? = s.children[k]? ∧
      (inAnimation (outAnimation (beginAnimation s).2).2).2.children[k]? = s.children[k]?) ∧
    (s._outPage = none → ∀ k, k ≠ i →
      (beginAnimation s).2.children[k]? = s.children[k]? ∧
      (inAnimation (beginAnimation s).2).2.children[k]? = s.children[k]?) := by
  obtain ⟨ch, ac, afs, sel, anim, inE, outE, inP, outP, ccf, inL, outL⟩ := s
  simp only [] at hin hcc hie hoe
  subst hin hcc hie hoe
  constructor
  · intro o ho k hki hko
    simp only [] at ho
    subst ho
    refine ⟨?_, ?_, ?_, ?_, ?_⟩ <;>
      simp [beginAnimation, inAnimation, outAnimation, onAnimationEnd, updChild,
        updateNth_get_ne, hki, hko]
  · intro ho k hki
    simp only [] at ho
    subst ho
    refine ⟨?_, ?_⟩ <;>
      simp [beginAnimation, inAnimation, outAnimation, onAnimationEnd, updChild,
        updateNth_get_ne, hki]

/-- Witness for C9: on the concrete `0 → 1` transition of a three-child
element, child 2 is untouched from begin to settle. -/
theorem claim9_witness :
    (beginAnimation W9).2.children[2]? = W9.children[2]? ∧
    (outAnimation (inAnimation (beginAnimation W9).2).2).2.children[2]? = W9.children[2]? := by
  have h := (claim9_transition_frame W9 1 cpFade rfl rfl rfl rfl).1 0 rfl 2
    (by decide) (by decide)
  exact ⟨h.1, h.2.2.2.1⟩

theorem page_begin_in (p : Page) (cc : ClassPair) :
    cc.«in» ∈ ((p.classListAdd cc.«in»).setAttribute "active" "true").classes ∧
    ((p.classListAdd cc.«in»).setAttribute "active" "true").getAttribute "active" =
      some "true" := by
  constructor
  · simp [Page.classListAdd, Page.setAttribute, mem_addClass_self]
  · simp [Page.setAttribute, Page.getAttribute, getAttr_setAttr_self]

theorem page_settle_in (p : Page) (cc : ClassPair) :
    cc.«in» ∉
      ((((p.classListAdd cc.«in»).setAttribute "active" "true").classListRemove
        cc.«in»)).classes ∧
    ((((p.classListAdd cc.«in»).setAttribute "active" "true").classListRemove
        cc.«in»)).getAttribute "active" = some "true" := by
  constructor
  · simp [Page.classListAdd, Page.setAttribute, Page.classListRemove,
      not_mem_removeClass_self]
  · simp [Page.setAttribute, Page.getAttribute, Page.classListRemove,
      getAttr_setAttr_self]

theorem page_settle_out (p : Page) (cc : ClassPair) :
    cc.out ∉ (((p.classListAdd cc.out).removeAttribute "active").classListRemove
      cc.out).classes ∧
    (((p.classListAdd cc.out).removeAttribute "active").classListRemove
      cc.out).getAttribute "active" = none := by
  constructor
  · simp [Page.classListAdd, Page.removeAttribute, Page.classListRemove,
      not_mem_removeClass_self]
  · simp [Page.removeAttribute, Page.getAttribute, Page.classListRemove,
      getAttr_removeAttr_self]

/-- C6: starting a transition adds the matched rule's `out` class to the
previous page (when one exists) and the `in` class plus `active="true"` to the
new page; at settling the `in` class is removed from the new page and both the
`active` attribute and the `out` class are removed from the previous page, so
afterwards the new page is the only one of the two carrying `active` and
neither page retains its animation class. -/
theorem claim6_transition_classes_attrs (s : HeliumState) (i : Nat) (cc : ClassPair)
    (hin : s._inPage = some i) (hcc : s._currentClasses = some cc)
    (hie : s._inAnimationEnded = false) (hoe : s._outAnimationEnded = false)
    (hilen : i < s.children.length) :
    (∀ o, s._outPage = some o → o < s.children.length → o ≠ i →
      childHasClass (beginAnimation s).2.children o cc.out ∧
      childHasClass (beginAnimation s).2.children i cc.«in» ∧
      childAttr (beginAnimation s).2.children i "active" = some "true" ∧
      ¬ childHasClass (outAnimation (inAnimation (beginAnimation s).2).2).2.children i
          cc.«in» ∧
      childAttr (outAnimation (inAnimation (beginAnimation s).2).2).2.children i
          "active" = some "true" ∧
      ¬ childHasClass (outAnimation (inAnimation (beginAnimation s).2).2).2.children o
          cc.out ∧
      childAttr (outAnimation (inAnimation (beginAnimation s).2).2).2.children o
          "active" = none) ∧
    (s._outPage = none →
      childHasClass (beginAnimation s).2.children i cc.«in» ∧
      childAttr (beginAnimation s).2.children i "active" = some "true" ∧
      ¬ childHasClass (inAnimation (beginAnimation s).2).2.children i cc.«in» ∧
      childAttr (inAnimation (beginAnimation s).2).2.children i "active" =
        some "true") := by
  obtain ⟨ch, ac, afs, sel, anim, inE, outE, inP, outP, ccf, inL, outL⟩ := s
  simp only [] at hin hcc hie hoe hilen
  subst hin hcc hie hoe
  constructor
  · intro o ho holen hoi
    simp only [] at ho
    subst ho
    obtain ⟨p, hp⟩ : ∃ p, ch[i]? = some p := ⟨ch[i], (List.getElem?_eq_getElem hilen)⟩
    obtain ⟨q, hq⟩ : ∃ q, ch[o]? = some q := ⟨ch[o], (List.getElem?_eq_getElem holen)⟩
    have hio : i ≠ o := fun h => hoi h.symm
    refine ⟨?_, ?_, ?_, ?_, ?_, ?_, ?_⟩ <;>
      simp [beginAnimation, inAnimation, outAnimation, onAnimationEnd, updChild,
        childHasClass, childAttr, updateNth_get_ne, updateNth_get_eq, hio, hoi,
        hp, hq, Page.classListAdd, Page.classListRemove, Page.setAttribute,
        Page.removeAttribute, Page.getAttribute, mem_addClass_self,
        not_mem_removeClass_self, getAttr_setAttr_self, getAttr_removeAttr_self]
  · intro ho
    simp only [] at ho
    subst ho
    obtain ⟨p, hp⟩ : ∃ p, ch[i]? = some p := ⟨ch[i], (List.getElem?_eq_getElem hilen)⟩
    refine ⟨?_, ?_, ?_, ?_⟩ <;>
      simp [beginAnimation, inAnimation, outAnimation, onAnimationEnd, updChild,
        childHasClass, childAttr, updateNth_get_ne, updateNth_get_eq, hp,
        Page.classListAdd, Page.classListRemove, Page.setAttribute,
        Page.removeAttribute, Page.getAttribute, mem_addClass_self,
        not_mem_removeClass_self, getAttr_setAttr_self, getAttr_removeAttr_self]

/-- Witness for C6 on the concrete `0 → 1` transition: the animation classes
and the `active` attribute move as described. -/
theorem claim6_witness :
    childHasClass (beginAnimation W2).2.children 0 cpFade.out ∧
    childAttr (outAnimation (inAnimation (beginAnimation W2).2).2).2.children 1
      "active" = some "true" ∧
    childAttr (outAnimation (inAnimation (beginAnimation W2).2).2).2.children 0
      "active" = none := by
  have h := (claim6_transition_classes_attrs W2 1 cpFade rfl rfl rfl rfl
    (by decide)).1 0 rfl (by decide) (by decide)
  exact ⟨h.1, h.2.2.2.2.1, h.2.2.2.2.2.2⟩

/-- C5: while `isAnimating` is true (with `animationClasses` set) the setter
returns silently for every value of `next`, leaving the state untouched; and
when the resolved page equals the currently selected item it returns without
throwing and without starting an animation, leaving `selected`,
`selectedItem`, `isAnimating` and every child unchanged. -/
theorem claim5_noop_cases (s : HeliumState) (next : NextVal) :
    (∀ table, s.animationClasses = some table → s._animating = true →
      setSelected s next = (none, s)) ∧
    (∀ table m i, s.animationClasses = some table → s._animating = false →
      isStringMode next = Except.ok m →
      (m = true → attrTruthy s.attrForSelected = true) →
      resolveInPage s next m = some i → selectedItem s = some i →
      (setSelected s next).1 = none ∧
      (setSelected s next).2.children = s.children ∧
      (setSelected s next).2._selected = s._selected ∧
      (setSelected s next).2._animating = false ∧
      selectedItem (setSelected s next).2 = selectedItem s) := by
  obtain ⟨ch, ac, afs, sel, anim, inE, outE, inP, outP, ccf, inL, outL⟩ := s
  constructor
  · intro table hac hanim
    simp only [] at hac hanim
    subst hac
    subst hanim
    simp [setSelected]
  · intro table m i hac hanim hm hg hres hsel
    simp only [] at hac hanim
    subst hac
    subst hanim
    have hguard : (m && !(attrTruthy afs)) = false := by
      cases m
      · rfl
      · have h2 : attrTruthy afs = true := by simpa using hg rfl
        simp [h2]
    have hred : setSelected
        ⟨ch, some table, afs, sel, false, inE, outE, inP, outP, ccf, inL, outL⟩ next =
        (none, ⟨ch, some table, afs, sel, false, inE, outE, some i, some i, ccf,
          inL, outL⟩) := by
      simp [setSelected, hm, hguard, hres, hsel]
    rw [hred]
    exact ⟨rfl, rfl, rfl, rfl, selectedItem_only_depends _ _ rfl rfl rfl⟩

/-- Witness for C5: re-selecting the already selected page is a silent no-op
on the observable state. -/
theorem claim5_witness :
    (setSelected W5 (NextVal.num 0)).1 = none ∧
    (setSelected W5 (NextVal.num 0)).2.children = W5.children ∧
    selectedItem (setSelected W5 (NextVal.num 0)).2 = selectedItem W5 := by
  have h := (claim5_noop_cases W5 (NextVal.num 0)).2 W1 false 0 rfl rfl rfl
    (by intro hh; cases hh) rfl rfl
  exact ⟨h.1, h.2.1, h.2.2.2.2⟩

/-- C4 (amended): the setter throws exactly when `animationClasses` is unset;
or (not animating and) `next` has an invalid type; or `next` is a string while
`attrForSelected` is unset; or no page resolves for `next`; or — the case the
original claim misses — a fresh page resolves but the rule table yields no
class pair (no matching rule and no `default` entry), in which case a
TypeError escapes `_beginAnimation` after `isAnimating` has already been set
to true.  In the four listed cases the observable state is unchanged. -/
theorem claim4_throw_characterization (s : HeliumState) (next : NextVal) :
    (s.animationClasses = none →
      setSelected s next = (some "animationClasses must be defined", s)) ∧
    (∀ table, s.animationClasses = some table → s._animating = true →
      setSelected s next = (none, s)) ∧
    (∀ table e, s.animationClasses = some table → s._animating = false →
      isStringMode next = Except.error e →
      setSelected s next = (some e, s)) ∧
    (∀ table, s.animationClasses = some table → s._animating = false →
      isStringMode next = Except.ok true → attrTruthy s.attrForSelected = false →
      setSelected s next =
        (some "attrForSelected must be defined if next is a string", s)) ∧
    (∀ table m, s.animationClasses = some table → s._animating = false →
      isStringMode next = Except.ok m →
      (m = true → attrTruthy s.attrForSelected = true) →
      resolveInPage s next m = none →
      (setSelected s next).1 = some (noPageMsg s m next) ∧
      (setSelected s next).2.children = s.children ∧
      (setSelected s next).2._selected = s._selected ∧
      (setSelected s next).2._animating = s._animating ∧
      selectedItem (setSelected s next).2 = selectedItem s) ∧
    (∀ table m i, s.animationClasses = some table → s._animating = false →
      isStringMode next = Except.ok m →
      (m = true → attrTruthy s.attrForSelected = true) →
      resolveInPage s next m = some i → selectedItem s = some i →
      (setSelected s next).1 = none) ∧
    (∀ table m i, s.animationClasses = some table → s._animating = false →
      isStringMode next = Except.ok m →
      (m = true → attrTruthy s.attrForSelected = true) →
      resolveInPage s next m = some i → selectedItem s ≠ some i →
      animationClassesFor table (nextStr next) (prevId (midState s i) m) = none →
      (setSelected s next).1.isSome = true ∧
      (setSelected s next).2._animating = true) ∧
    (∀ table m i cc, s.animationClasses = some table → s._animating = false →
      isStringMode next = Except.ok m →
      (m = true → attrTruthy s.attrForSelected = true) →
      resolveInPage s next m = some i → selectedItem s ≠ some i →
      animationClassesFor table (nextStr next) (prevId (midState s i) m) = some cc →
      (setSelected s next).1 = none) := by
  obtain ⟨ch, ac, afs, sel, anim, inE, outE, inP, outP, ccf, inL, outL⟩ := s
  refine ⟨?_, ?_, ?_, ?_, ?_, ?_, ?_, ?_⟩
  · intro hac
    simp only [] at hac
    subst hac
    simp [setSelected]
  · intro table hac hanim
    simp only [] at hac hanim
    subst hac
    subst hanim
    simp [setSelected]
  · intro table e hac hanim hm
    simp only [] at hac hanim
    subst hac
    subst hanim
    simp [setSelected, hm]
  · intro table hac hanim hm hattr
    simp only [] at hac hanim hattr
    subst hac
    subst hanim
    simp [setSelected, hm, hattr]
  · intro table m hac hanim hm hg hres
    simp only [] at hac hanim
    subst hac
    subst hanim
    have hguard : (m && !(attrTruthy afs)) = false := by
      cases m
      · rfl
      · have h2 : attrTruthy afs = true := by simpa using hg rfl
        simp [h2]
    have hred : setSelected
        ⟨ch, some table, afs, sel, false, inE, outE, inP, outP, ccf, inL, outL⟩ next =
        (some (noPageMsg
            ⟨ch, some table, afs, sel, false, inE, outE, inP, outP, ccf, inL, outL⟩
            m next),
          ⟨ch, some table, afs, sel, false, inE, outE, none,
            selectedItem
              ⟨ch, some table, afs, sel, false, inE, outE, inP, outP, ccf, inL, outL⟩,
            ccf, inL, outL⟩) := by
      simp [setSelected, hm, hguard, hres]
    rw [hred]
    exact ⟨rfl, rfl, rfl, rfl, selectedItem_only_depends _ _ rfl rfl rfl⟩
  · intro table m i hac hanim hm hg hres hsel
    simp only [] at hac hanim
    subst hac
    subst hanim
    have hguard : (m && !(attrTruthy afs)) = false := by
      cases m
      · rfl
      · have h2 : attrTruthy afs = true := by simpa using hg rfl
        simp [h2]
    simp [setSelected, hm, hguard, hres, hsel]
  · intro table m i hac hanim hm hg hres hsel hclasses
    simp only [] at hac hanim
    subst hac
    subst hanim
    have hguard : (m && !(attrTruthy afs)) = false := by
      cases m
      · rfl
      · have h2 : attrTruthy afs = true := by simpa using hg rfl
        simp [h2]
    simp only [midState] at hclasses
    cases houtp : selectedItem
        ⟨ch, some table, afs, sel, false, inE, outE, inP, outP, ccf, inL, outL⟩ with
    | none =>
        rw [houtp] at hclasses
        simp only [prevId] at hclasses
        simp [setSelected, hm, hguard, hres, houtp, prevId, beginAnimation,
          updChild, hclasses]
    | some o =>
        rw [houtp] at hclasses
        have hio : ¬ i = o := fun hh => hsel (by rw [houtp, hh])
        simp [setSelected, hm, hguard, hres, houtp, hio, beginAnimation,
          updChild, hclasses]
  · intro table m i cc hac hanim hm hg hres hsel hclasses
    simp only [] at hac hanim
    subst hac
    subst hanim
    have hguard : (m && !(attrTruthy afs)) = false := by
      cases m
      · rfl
      · have h2 : attrTruthy afs = true := by simpa using hg rfl
        simp [h2]
    simp only [midState] at hclasses
    cases houtp : selectedItem
        ⟨ch, some table, afs, sel, false, inE, outE, inP, outP, ccf, inL, outL⟩ with
    | none =>
        rw [houtp] at hclasses
        simp only [prevId] at hclasses
        simp [setSelected, hm, hguard, hres, houtp, prevId, beginAnimation,
          updChild, hclasses]
    | some o =>
        rw [houtp] at hclasses
        have hio : ¬ i = o := fun hh => hsel (by rw [houtp, hh])
        simp [setSelected, hm, hguard, hres, houtp, hio, beginAnimation,
          updChild, hclasses]

/-- When the setter resolves a fresh page it ends in `_beginAnimation` on a
state whose `_inPage` is the resolved page and whose `_selected` has been
reassigned; the configuration fields are untouched. -/
theorem setSelected_transition_shape (s : HeliumState) (next : NextVal)
    (table : RuleTable) (m : Bool) (i : Nat)
    (hac : s.animationClasses = some table) (hanim : s._animating = false)
    (hm : isStringMode next = Except.ok m)
    (hguard : (m && !(attrTruthy s.attrForSelected)) = false)
    (hres : resolveInPage s next m = some i)
    (hsame : selectedItem s ≠ some i) :
    ∃ t, setSelected s next = beginAnimation t ∧
      t._inPage = some i ∧ t._selected = newSelected s next i ∧
      t.attrForSelected = s.attrForSelected ∧ t.children = s.children := by
  obtain ⟨ch, ac, afs, sel, anim, inE, outE, inP, outP, ccf, inL, outL⟩ := s
  simp only [] at hac hanim
  subst hac
  subst hanim
  have hcond : ¬ (some i = selectedItem
      ⟨ch, some table, afs, sel, false, inE, outE, inP, outP, ccf, inL, outL⟩) :=
    fun hh => hsame hh.symm
  simp only [setSelected, hm, hguard, hres]
  simp only [Bool.false_eq_true, if_false, hcond, reduceCtorEq]
  exact ⟨_, rfl, rfl, rfl, rfl, rfl⟩

/-- When the setter resolves the currently selected page it returns silently
having only reassigned `_inPage`/`_outPage`. -/
theorem setSelected_samepage_shape (s : HeliumState) (next : NextVal)
    (table : RuleTable) (m : Bool) (i : Nat)
    (hac : s.animationClasses = some table) (hanim : s._animating = false)
    (hm : isStringMode next = Except.ok m)
    (hguard : (m && !(attrTruthy s.attrForSelected)) = false)
    (hres : resolveInPage s next m = some i)
    (hsame : selectedItem s = some i) :
    setSelected s next = (none, { s with _inPage := some i, _outPage := some i }) := by
  obtain ⟨ch, ac, afs, sel, anim, inE, outE, inP, outP, ccf, inL, outL⟩ := s
  simp only [] at hac hanim
  subst hac
  subst hanim
  simp [setSelected, hm, hguard, hres, hsame]

/-- C3 (amended): a string identifier activates the first child whose
`attrForSelected` attribute equals it, and an integer identifier activates the
child at that index; afterwards `selectedItem` returns exactly the activated
element — in string mode provided the identifier is non-empty and
`attrForSelected` is not the literal name `active`, and in index mode provided
`attrForSelected` is unset (the original claim's unconditional `selectedItem`
guarantee fails otherwise). -/
theorem claim3_selection_resolution (s : HeliumState) (next : NextVal) :
    (∀ table a v i, s.animationClasses = some table → s._animating = false →
      next = NextVal.str v → s.attrForSelected = some a → a ≠ "" → v ≠ "" →
      a ≠ "active" → qsIdx s.children a v = some i →
      (setSelected s next).2._inPage = some i ∧
      (∃ p, s.children[i]? = some p ∧ p.getAttribute a = some v) ∧
      (∀ j, j < i → ∀ p, s.children[j]? = some p → p.getAttribute a ≠ some v) ∧
      selectedItem (setSelected s next).2 = some i) ∧
    (∀ (table : RuleTable) (n : Nat), s.animationClasses = some table →
      s._animating = false →
      next = NextVal.num (n : Int) → n < s.children.length →
      (setSelected s next).2._inPage = some n ∧
      (attrTruthy s.attrForSelected = false →
        selectedItem (setSelected s next).2 = some n)) := by
  obtain ⟨ch, ac, afs, sel, anim, inE, outE, inP, outP, ccf, inL, outL⟩ := s
  constructor
  · intro table a v i hac hanim hnext hafs ha hv hactive hqs
    simp only [] at hac hanim hafs
    subst hac
    subst hanim
    subst hafs
    subst hnext
    simp only [] at hqs
    have hat : attrTruthy (some a) = true := by simp [attrTruthy, ha]
    have hm : isStringMode (NextVal.str v) = Except.ok true := rfl
    have hguard : (true && !(attrTruthy (some a))) = false := by simp [hat]
    have hresolve : resolveInPage
        ⟨ch, some table, some a, sel, false, inE, outE, inP, outP, ccf, inL, outL⟩
        (NextVal.str v) true = some i := by
      simp [resolveInPage, attrVal, nextStr, hqs]
    obtain ⟨p, hpi, hpa⟩ := qsIdx_found ch a v i hqs
    have hchildAttr : childAttr ch i a = some v := by simp [childAttr, hpi, hpa]
    have hnewsel : newSelected
        ⟨ch, some table, some a, sel, false, inE, outE, inP, outP, ccf, inL, outL⟩
        (NextVal.str v) i = some (SelId.str v) := by
      simp [newSelected, hat, attrVal, hchildAttr]
    by_cases hsame : selectedItem
        ⟨ch, some table, some a, sel, false, inE, outE, inP, outP, ccf, inL, outL⟩ =
        some i
    · rw [setSelected_samepage_shape _ _ table true i rfl rfl hm hguard hresolve hsame]
      refine ⟨rfl, ⟨p, hpi, hpa⟩, qsIdx_first ch a v i hqs, ?_⟩
      exact (selectedItem_only_depends _ _ rfl rfl rfl).trans hsame
    · rcases setSelected_transition_shape _ _ table true i rfl rfl hm hguard
        hresolve hsame with ⟨t, ht, htin, htsel, htafs, htch⟩
      rw [ht]
      have hpre := beginAnimation_preserves t a hactive
      refine ⟨hpre.1.trans htin, ⟨p, hpi, hpa⟩, qsIdx_first ch a v i hqs, ?_⟩
      rw [selectedItem_str_via _ a v (hpre.2.1.trans (htsel.trans hnewsel)) hv
        (hpre.2.2.1.trans htafs) ha]
      have h1 : qsIdx (beginAnimation t).2.children a v = qsIdx t.children a v :=
        qsIdx_congr _ _ a hpre.2.2.2.2 v
      rw [h1, htch]
      exact hqs
  · intro table n hac hanim hnext hn
    simp only [] at hac hanim hn
    subst hac
    subst hanim
    subst hnext
    have hm : isStringMode (NextVal.num (n : Int)) = Except.ok false := by
      simp [isStringMode]
    have hguard : (false && !(attrTruthy afs)) = false := rfl
    have hresolve : resolveInPage
        ⟨ch, some table, afs, sel, false, inE, outE, inP, outP, ccf, inL, outL⟩
        (NextVal.num (n : Int)) false = some n := by
      simp [resolveInPage, hn]
    by_cases hsame : selectedItem
        ⟨ch, some table, afs, sel, false, inE, outE, inP, outP, ccf, inL, outL⟩ =
        some n
    · rw [setSelected_samepage_shape _ _ table false n rfl rfl hm hguard hresolve hsame]
      refine ⟨rfl, fun _ => ?_⟩
      exact (selectedItem_only_depends _ _ rfl rfl rfl).trans hsame
    · rcases setSelected_transition_shape _ _ table false n rfl rfl hm hguard
        hresolve hsame with ⟨t, ht, htin, htsel, htafs, htch⟩
      rw [ht]
      have hpre := beginAnimation_preserves t "" (by decide)
      refine ⟨hpre.1.trans htin, fun hattr => ?_⟩
      have hnewselB : newSelected
          ⟨ch, some table, afs, sel, false, inE, outE, inP, outP, ccf, inL, outL⟩
          (NextVal.num (n : Int)) n = some (SelId.idx n) := by
        simp [newSelected, hattr]
      rw [selectedItem_idx_via _ n (hpre.2.1.trans (htsel.trans hnewselB))
        (by rw [hpre.2.2.1, htafs]; exact hattr)]
      rw [hpre.2.2.2.1, htch]
      simp [hn]

/-- Counterexample to C3 as stated: (A) selecting index 1 while
`attrForSelected` is set activates child 1 (it gets `active="true"`) but
`selectedItem` then resolves the attribute value to the *first* matching
child, 0; (B) with `attrForSelected = "active"` the started transition
rewrites the identifying attribute, so `selectedItem` finds nothing; (C) a
selected empty-string identifier is falsy, so `selectedItem` returns null
although child 0 was activated. -/
theorem claim3_counterexample :
    ((setSelected C3stateA (NextVal.num 1)).1 = none ∧
     (setSelected C3stateA (NextVal.num 1)).2._inPage = some 1 ∧
     childAttr (setSelected C3stateA (NextVal.num 1)).2.children 1 "active" =
       some "true" ∧
     selectedItem (setSelected C3stateA (NextVal.num 1)).2 = some 0) ∧
    ((setSelected C3stateB (NextVal.str "x")).2._inPage = some 0 ∧
     selectedItem (setSelected C3stateB (NextVal.str "x")).2 = none) ∧
    ((setSelected C3stateC (NextVal.str "")).2._inPage = some 0 ∧
     selectedItem (setSelected C3stateC (NextVal.str "")).2 = none) := by
  refine ⟨⟨?_, ?_, ?_, ?_⟩, ⟨?_, ?_⟩, ⟨?_, ?_⟩⟩ <;> rfl

/-- Witness for C3 (amended): selecting `"b"` activates the child at index 1
and `selectedItem` afterwards resolves to it. -/
theorem claim3_witness :
    (setSelected W3 (NextVal.str "b")).2._inPage = some 1 ∧
    selectedItem (setSelected W3 (NextVal.str "b")).2 = some 1 := by
  have h := (claim3_selection_resolution W3 (NextVal.str "b")).1
    defaultTable "name" "b" 1 rfl rfl rfl rfl (by decide) (by decide) (by decide) rfl
  exact ⟨h.1, h.2.2.2⟩

/-- Counterexample to C4 as stated: `animationClasses` is set, `next = 0` is a
valid non-negative integer, a fresh page is resolved — none of the four listed
throwing cases — and yet the call throws (a TypeError reading a property of
`undefined` in `_beginAnimation`, because no rule matches and there is no
`default` entry), and it leaves `isAnimating` flipped to `true`. -/
theorem claim4_counterexample :
    C4state.animationClasses.isSome = true ∧
    C4state._animating = false ∧
    isStringMode (NextVal.num 0) = Except.ok false ∧
    resolveInPage C4state (NextVal.num 0) false = some 0 ∧
    selectedItem C4state = none ∧
    (setSelected C4state (NextVal.num 0)).1.isSome = true ∧
    (setSelected C4state (NextVal.num 0)).2._animating = true := by
  refine ⟨?_, ?_, ?_, ?_, ?_, ?_, ?_⟩ <;> rfl

/-- Witness for C4 (amended): the fifth throwing case fires on `C4state` and
leaves `isAnimating` true. -/
theorem claim4_witness :
    (setSelected C4state (NextVal.num 0)).1.isSome = true ∧
    (setSelected C4state (NextVal.num 0)).2._animating = true :=
  (claim4_throw_characterization C4state (NextVal.num 0)).2.2.2.2.2.2.1
    [] false 0 rfl rfl rfl (by decide) rfl (by decide) rfl

/-- C8: `selectNext` selects the child at index `i + 1` (`i` the index of the
currently selected item), wrapping to 0 from the last child or when nothing is
selected; `selectPrevious` selects index `i - 1`, wrapping to the last child
from index 0 or when nothing is selected; both throw when there are no
children. -/
theorem claim8_selectNext_selectPrevious (s : HeliumState) :
    (s.children.length = 0 →
      selectNext s = (some "This component has no children to animate", s) ∧
      selectPrevious s = (some "This component has no children to animate", s)) ∧
    (s.children.length ≠ 0 → selectedItem s = none →
      selectNext s = setSelected s (NextVal.num 0) ∧
      selectPrevious s = setSelected s (NextVal.num ((s.children.length : Int) - 1))) ∧
    (∀ k, selectedItem s = some k →
      selectNext s = setSelected s
        (NextVal.num (if k + 1 ≥ s.children.length then 0 else (k : Int) + 1)) ∧
      selectPrevious s = setSelected s
        (NextVal.num (if k = 0 then (s.children.length : Int) - 1 else (k : Int) - 1))) := by
  refine ⟨?_, ?_, ?_⟩
  · intro h0
    constructor <;> simp [selectNext, selectPrevious, h0]
  · intro h0 hsel
    constructor
    · have hc : ¬ ((-1 : Int) + 1 ≥ (s.children.length : Int)) := by
        omega
      simp [selectNext, h0, hsel, hc]
    · have hc : ((-1 : Int) - 1 < 0) := by omega
      simp [selectPrevious, h0, hsel, hc]
  · intro k hsel
    have hk := selectedItem_lt_length s k hsel
    have h0 : ¬ (s.children.length = 0) := by omega
    constructor
    · by_cases hc : k + 1 ≥ s.children.length
      · have hci : ((k : Int) + 1 ≥ (s.children.length : Int)) := by exact_mod_cast hc
        simp [selectNext, h0, hsel, hc, hci]
      · have hci : ¬ ((k : Int) + 1 ≥ (s.children.length : Int)) := by exact_mod_cast hc
        simp [selectNext, h0, hsel, hc, hci]
    · by_cases hc : k = 0
      · subst hc
        have hci : ((0 : Int) - 1 < 0) := by omega
        simp [selectPrevious, h0, hsel, hci]
      · have hci : ¬ ((k : Int) - 1 < 0) := by omega
        simp [selectPrevious, h0, hsel, hc, hci]

/-- Witness for C8: with child 1 of three selected, `selectNext` targets
index 2 and `selectPrevious` targets index 0. -/
theorem claim8_witness :
    selectNext W9 = setSelected W9 (NextVal.num 2) ∧
    selectPrevious W9 = setSelected W9 (NextVal.num 0) := by
  have h := (claim8_selectNext_selectPrevious W9).2.2 1 rfl
  constructor
  · have h1 := h.1
    norm_num at h1
    exact h1
  · have h2 := h.2
    norm_num at h2
    exact h2

end Helium
